import Mathlib

/-!
Verification development for the Shopify SEO live-editor repository.

The embedding below is a shallow model of the workspace mutation and
synchronization engine of `src/App.tsx` and of the AI gateway wrapper
`AIService` (`src/services/geminiService.ts`, provided as
`src/unnamed/part_000`, first revision):

* a product record (`ProductRow`, `{ [key: string]: string }`) is an
  association list from field name to string value, in JavaScript object
  key-insertion order;
* the React component state of `App` is the structure `AppState` below;
  each `useState` setter becomes a functional record update;
* `JSON.parse(JSON.stringify(x))` deep copies of string-valued records are
  the identity on values, so they are dropped;
* external calls (Shopify push, Gemini/OpenAI provider calls) are oracle
  function parameters; a thrown JavaScript exception is an `Except.error`
  (resp. a `PushRes.fail`) carrying the error message string.

Definitions mirror the source names where Lean allows it.
-/

/-- One JavaScript object with string keys and string values, in key
insertion order (the shape of `ProductRow` in `src/types.ts`). -/
abbrev Row := List (String × String)

/-- Lookup of a key in a JS-object-as-association-list (first matching key;
keys of a JS object are unique). -/
def mapFind {α : Type} (m : List (String × α)) (k : String) : Option α :=
  match m with
  | [] => none
  | (k', v) :: rest => if k' = k then some v else mapFind rest k

/-- `{...m, [k]: v}` / `m[k] = v`: update the first occurrence of `k` in
place, append `(k, v)` when absent — JS object key-order semantics. -/
def mapSet {α : Type} : List (String × α) → String → α → List (String × α)
  | [], k, v => [(k, v)]
  | (k', v') :: rest, k, v =>
      if k' = k then (k, v) :: rest else (k', v') :: mapSet rest k v

/-- `delete m[k]`: drop every binding of `k`. -/
def mapDelete {α : Type} : List (String × α) → String → List (String × α)
  | [], _ => []
  | (k', v') :: rest, k =>
      if k' = k then mapDelete rest k else (k', v') :: mapDelete rest k

/-- `row[col] || ''`: field access with the empty string for a missing
field (and `'' || ''` is `''`, so the default also absorbs empty values). -/
def rowGetOr (r : Row) (k : String) : String := (mapFind r k).getD ""

/-- Template-literal interpolation `${row.k}`: a missing property prints as
the string "undefined" in JavaScript. -/
def rowInterp (r : Row) (k : String) : String := (mapFind r k).getD "undefined"

/-- `a || b` on strings: `b` when `a` is falsy (empty), else `a`. -/
def jsOr (a b : String) : String := if a = "" then b else a

/-- Does the character list `text` start with `pat`? -/
def charsLead : List Char → List Char → Bool
  | [], _ => true
  | _ :: _, [] => false
  | a :: as, b :: bs => (a = b) && charsLead as bs

/-- Does the character list `text` contain `pat` as a contiguous run? -/
def charsHave (pat : List Char) : List Char → Bool
  | [] => pat.isEmpty
  | b :: bs => charsLead pat (b :: bs) || charsHave pat bs

/-- JavaScript `s.includes(pat)`. -/
def containsSubstr (s pat : String) : Bool := charsHave pat.data s.data

/-- JavaScript `s.toLowerCase()` (ASCII case folding), computed over the
character list so that it evaluates inside the kernel. -/
def jsToLower (s : String) : String := String.mk (s.data.map Char.toLower)

/-- JavaScript `s.trim()`: drop whitespace from both ends, computed over
the character list so that it evaluates inside the kernel. -/
def jsTrim (s : String) : String :=
  String.mk (((s.data.dropWhile Char.isWhitespace).reverse.dropWhile
    Char.isWhitespace).reverse)

/-- The optimization mode enum of `src/types.ts`. -/
inductive OptimizationMode where
  | PROFESSIONAL | SEO_HIGH | HTML_CONTENT | FACTUAL
  | SEO_SLUG | SHORT_DESCRIPTION | SEO_KEYWORD | SELLING_BULLETS
deriving DecidableEq, Repr

/-- Per-record sync status values (`'pending' | 'syncing' | 'synced' |
'error'` in `App.tsx`); a record with no dirty status is simply absent from
the status map. -/
inductive SyncState where
  | pending | syncing | synced | error
deriving DecidableEq, Repr

/-- `TranslationStatus` from `src/types.ts` (the optional `error` field is
unused by `App.tsx` and omitted). -/
structure TranslationStatus where
  total : Nat
  completed : Nat
  isProcessing : Bool
deriving DecidableEq, Repr

/-- The React state of the `App` component that the core engine reads and
writes (UI-only state such as modal visibility and credentials is
omitted). -/
structure AppState where
  products : List Row
  originalProducts : List (String × Row)
  immutableProducts : List (String × Row)
  historyPast : List (List Row)
  historyFuture : List (List Row)
  selectedIds : List String
  allColumns : List String
  selectedColumns : List String
  columnModes : List (String × OptimizationMode)
  syncStatus : List (String × SyncState)
  status : TranslationStatus
  errorMsg : Option String
  successMsg : Option String
deriving DecidableEq, Repr

section MapLemmas

variable {α : Type}

theorem mapFind_mapSet_self (m : List (String × α)) (k : String) (v : α) :
    mapFind (mapSet m k v) k = some v := by
  induction m with
  | nil => simp [mapSet, mapFind]
  | cons p rest ih =>
    obtain ⟨k', v'⟩ := p
    by_cases h : k' = k
    · simp [mapSet, mapFind, h]
    · simp [mapSet, mapFind, h, ih]

theorem mapFind_mapSet_other (m : List (String × α)) (k k' : String) (v : α)
    (h : k' ≠ k) : mapFind (mapSet m k v) k' = mapFind m k' := by
  have h' : ¬ k = k' := fun hh => h hh.symm
  induction m with
  | nil => simp [mapSet, mapFind, h']
  | cons p rest ih =>
    obtain ⟨k₀, v₀⟩ := p
    by_cases h₀ : k₀ = k
    · subst h₀
      simp [mapSet, mapFind, h']
    · by_cases h₁ : k₀ = k'
      · simp [mapSet, mapFind, h₀, h₁, h]
      · simp [mapSet, mapFind, h₀, h₁, ih]

theorem mapFind_mapDelete_self (m : List (String × α)) (k : String) :
    mapFind (mapDelete m k) k = none := by
  induction m with
  | nil => simp [mapDelete, mapFind]
  | cons p rest ih =>
    obtain ⟨k₀, v₀⟩ := p
    by_cases h : k₀ = k
    · simp [mapDelete, h, ih]
    · simp [mapDelete, mapFind, h, ih]

end MapLemmas

/-! ## History helpers (`App.tsx` lines 60-86) -/

/-- `saveToHistory`: push a deep copy of the current working-copy list onto
the past-stack and clear the future-stack (`App.tsx:60-64`). -/
def saveToHistory (s : AppState) : AppState :=
  { s with historyPast := s.historyPast ++ [s.products], historyFuture := [] }

/-- `handleUndo` (`App.tsx:66-75`): no-op when the past-stack is empty;
otherwise the top of the past-stack becomes the working copy and the
pre-undo working copy is pushed onto the front of the future-stack. -/
def handleUndo (s : AppState) : AppState :=
  match s.historyPast.getLast? with
  | none => s
  | some previousState =>
      { s with
        historyFuture := s.products :: s.historyFuture
        products := previousState
        historyPast := s.historyPast.dropLast
        successMsg := some "×¤×¢×•×œ×” ×‘×•×˜×œ×” (Undo)" }

/-- `handleRedo` (`App.tsx:77-86`): no-op when the future-stack is empty;
otherwise the front of the future-stack becomes the working copy and the
pre-redo working copy is pushed onto the past-stack. -/
def handleRedo (s : AppState) : AppState :=
  match s.historyFuture with
  | [] => s
  | nextState :: newFuture =>
      { s with
        historyPast := s.historyPast ++ [s.products]
        products := nextState
        historyFuture := newFuture
        successMsg := some "×¤×¢×•×œ×” ×”×•×—×–×¨×” (Redo)" }

/-- An arbitrary forward mutation of the working copy: the spec's
`apply(E)` — every mutation entry point (user edit, pipeline write-back)
replaces only the `products` list, and a sequence of such edits is
determined by the product list it ends at. -/
def applyEdit (s : AppState) (p : List Row) : AppState := { s with products := p }

/-! ## Revert (`App.tsx:174-198`) -/

/-- The dirty recomputation of `handleRevert`:
`JSON.stringify(original) !== JSON.stringify(currentServer)`, where
`currentServer` may be `undefined` (then the comparison is `true`, one side
being the string "undefined"). -/
def revertIsDirty (original : Row) (currentServer : Option Row) : Bool :=
  match currentServer with
  | some cs => original ≠ cs
  | none => true

/-- `handleRevert(id)`: history checkpoint, then copy the immutable
baseline of `id` into the working copy (when both exist), then recompute
the dirty status of `id` against the last-known-remote map. -/
def handleRevert (s : AppState) (id : String) : AppState :=
  let s := saveToHistory s
  match mapFind s.immutableProducts id with
  | none => s
  | some original =>
      let currentServer := mapFind s.originalProducts id
      let products' :=
        match s.products.findIdx? (fun p => mapFind p "id" == some id) with
        | none => s.products
        | some idx => s.products.set idx original
      let syncStatus' :=
        if revertIsDirty original currentServer then
          mapSet s.syncStatus id SyncState.pending
        else
          mapDelete s.syncStatus id
      { s with products := products', syncStatus := syncStatus' }

/-! ## Workspace load (`handleShopifyConnect`, `App.tsx:110-165`) -/

/-- `detectDefaultMode` (`App.tsx:243-260`): cascading case-insensitive
substring checks, first match wins.  The two Hebrew-looking literals are
the exact (mojibake) characters stored in the source file. -/
def detectDefaultMode (colName : String) : OptimizationMode :=
  let c := jsToLower colName
  if containsSubstr c "selling" || containsSubstr c "bullets" then .SELLING_BULLETS
  else if containsSubstr c "option" || containsSubstr c "value" ||
      containsSubstr c "×©×™×•×š" then .FACTUAL
  else if containsSubstr c "keyword" then .SEO_KEYWORD
  else if containsSubstr c "slug" then .SEO_SLUG
  else if containsSubstr c "rank" || containsSubstr c "seo" then .SEO_HIGH
  else if containsSubstr c "description" && !containsSubstr c "short" then .HTML_CONTENT
  else if containsSubstr c "short" then .SHORT_DESCRIPTION
  else if containsSubstr c "name" || containsSubstr c "title" then .PROFESSIONAL
  else .FACTUAL

/-- The default-selected column names of `App.tsx:148-150`. -/
def defaultSelectedNames : List String :=
  ["name", "description", "slug", "rank_math_title", "rank_math_description",
   "rank_math_focus_keyword", "selling_bullets", "option1_name", "option1_values",
   "option2_name", "option2_values", "option3_name", "option3_values"]

/-- The state mutation performed by `handleShopifyConnect` after
`fetchShopifyProducts` succeeds (`App.tsx:129-159`): replace the working
copy with the fetched list, clear both history stacks, snapshot the
fetched records into both the last-known-remote map (`originalProducts`)
and the immutable baseline (`immutableProducts`), and (when the fetch is
non-empty) derive the column configuration.  Note that neither the
selection set nor the sync-status map is touched. -/
def loadWorkspace (s : AppState) (fetched : List Row) : AppState :=
  let origMap := fetched.foldl (fun m p => mapSet m (rowInterp p "id") p) []
  let base :=
    { s with
      products := fetched
      historyPast := []
      historyFuture := []
      originalProducts := origMap
      immutableProducts := origMap
      errorMsg := none }
  match fetched with
  | [] => base
  | first :: _ =>
      let keys := first.map (·.1)
      let validKeys := keys.filter
        (fun k => k ≠ "image" && k ≠ "id" && k ≠ "status" && k ≠ "permalink")
      let defaults := validKeys.filter (fun k => defaultSelectedNames.contains k)
      { base with
        allColumns := validKeys
        selectedColumns := defaults
        columnModes := validKeys.foldl (fun m k => mapSet m k (detectDefaultMode k)) [] }

/-! ## Sync reconciler (`handleSync`, `App.tsx:496-519`) -/

/-- Outcome of one `updateShopifyProduct` push (a thrown exception carries
the error message). -/
inductive PushRes where
  | ok
  | fail (msg : String)
deriving DecidableEq, Repr

/-- The body of the `for` loop in `handleSync` for one identifier: mark it
`syncing`; if the working copy holds a matching product, push it, and on
success mark `synced` and replace last-known-remote by the pushed record,
on failure mark `error` and surface the record-specific error message.
A missing product skips the push (`continue`). -/
def syncStep (st : AppState) (push : String → Row → PushRes) (id : String) : AppState :=
  let st1 := { st with syncStatus := mapSet st.syncStatus id SyncState.syncing }
  match st1.products.find? (fun p => mapFind p "id" == some id) with
  | none => st1
  | some product =>
      match push id product with
      | .ok =>
          { st1 with
            syncStatus := mapSet st1.syncStatus id SyncState.synced
            originalProducts := mapSet st1.originalProducts id product }
      | .fail msg =>
          { st1 with
            syncStatus := mapSet st1.syncStatus id SyncState.error
            errorMsg := some ("Sync failed for ID " ++ id ++ ": " ++ msg) }

/-- The work list of `handleSync`: the single requested identifier, or all
identifiers currently `pending` in key order. -/
def syncWorkList (s : AppState) (specificId : Option String) : List String :=
  match specificId with
  | some id => [id]
  | none => (s.syncStatus.filter (fun p => p.2 = SyncState.pending)).map (·.1)

/-- `handleSync` (`App.tsx:496-519`): process the work list sequentially;
each record's outcome is independent and a failed push never aborts the
remaining list (the `try/catch` is inside the loop, so no exception
escapes — here `handleSync` is a total function). -/
def handleSync (s : AppState) (push : String → Row → PushRes)
    (specificId : Option String) : AppState :=
  let ids := syncWorkList s specificId
  if ids.isEmpty then s
  else ids.foldl (fun st id => syncStep st push id) { s with successMsg := none }

/-! ## Batch transformation pipeline (`startOptimization`, `App.tsx:282-402`)

The string literals below are byte-faithful to the source file (which
stores its Hebrew text in mojibake form); braces and apostrophes appear as
escape sequences. -/

/-- One element of the batch sent to `AIService.translateBatch`
(`BatchItem` in `src/services/geminiService.ts`; `App.tsx` always supplies
`columnName`). -/
structure BatchItem where
  text : String
  mode : OptimizationMode
  columnName : String
deriving DecidableEq, Repr

/-- The mode-specific instruction construction of `App.tsx:306-373`: the
raw field value is successively rewritten by the branch matching `mode`
(the branches are independent `if`s in the source, but the `mode` equality
tests make at most one fire). -/
def constructContent (row : Row) (col : String) (mode : OptimizationMode) : String :=
  let content := rowGetOr row col
  let content :=
    if mode = .HTML_CONTENT then
      "CONTEXT: \x7b Product: \"" ++ rowInterp row "name" ++ "\", CurrentKeyword: \"" ++
      rowGetOr row "rank_math_focus_keyword" ++ "\" \x7d SOURCE_CONTENT: " ++ content ++
      " \n\n MANDATORY: Generate High-End Designed HTML using the \x27Heebo\x27 template and Dynamic Color Palette defined in the System Instructions. STRICTLY NO MARKDOWN. Do NOT include \"Kleerix\" in text."
    else content
  let content :=
    if mode = .SEO_SLUG then
      "CONTEXT: \x7b Product Name: \"" ++ rowInterp row "name" ++ "\", Keyword: \"" ++
      rowGetOr row "rank_math_focus_keyword" ++
      "\" \x7d TASK: Generate Short HEBREW Slug (hyphenated). e.g. ××•×¦×¨-×©×-×ª×›×•× ×”. Do NOT include brand name."
    else content
  let content :=
    if mode = .SEO_KEYWORD then
      "CONTEXT: \x7b Product: \"" ++ rowInterp row "name" ++ "\", Desc: \"" ++
      rowGetOr row "short_description" ++
      "\" \x7d TASK: Generate 1 High Intent, Specific Commercial Keyword (3-4 words). Example: \"××›×©×™×¨ ×œ×—×™×–×•×§ ×›×£ ×”×™×“\" (with \x27×œ\x27). Avoid generic terms. Do NOT use \"××—×™×¨\" or \"Buy\"."
    else content
  let content :=
    if mode = .SHORT_DESCRIPTION then
      if content = "" || jsTrim content = "" then
        "CONTEXT: \x7b Product: \"" ++ rowInterp row "name" ++ "\", Keyword: \"" ++
        rowGetOr row "rank_math_focus_keyword" ++
        "\" \x7d TASK: Generate CTR-Focused Short Description (Benefit + CTA). Do NOT include \"Kleerix\"."
      else content
    else content
  let content :=
    if mode = .SEO_HIGH then
      let isTitle := containsSubstr col "title"
      let isDesc := containsSubstr col "description"
      let keyword := jsOr (rowGetOr row "rank_math_focus_keyword") "AUTO_DETECT"
      if isTitle then
        "CONTEXT: \x7b Product: \"" ++ rowInterp row "name" ++ "\", Keyword: \"" ++ keyword ++
        "\" \x7d TASK: Generate H1/Title. CRITICAL: The Title MUST start with the exact keyword phrase \"" ++
        keyword ++
        "\" character-for-character. Do NOT remove prepositions (like \x27×œ\x27 or \x27×‘\x27). Formula: \x7bExact Keyword\x7d - \x7bFeature\x7d. Max 60 chars."
      else if isDesc then
        "CONTEXT: \x7b Product: \"" ++ rowInterp row "name" ++ "\", Keyword: \"" ++ keyword ++
        "\", Desc: \"" ++ rowGetOr row "short_description" ++
        "\" \x7d TASK: Generate Meta Description. Formula: \x7bKeyword\x7d + \x7bBenefit\x7d + \x7bUSP\x7d + \x7bCTA\x7d. Do NOT include \"Kleerix\". Max 155 chars."
      else content
    else content
  let content :=
    if mode = .PROFESSIONAL then
      let keyword := rowGetOr row "rank_math_focus_keyword"
      if keyword ≠ "" then
        "CONTEXT: \x7b Product: \"" ++ rowInterp row "name" ++ "\", Keyword: \"" ++ keyword ++
        "\" \x7d TASK: Generate Professional Product Title in Hebrew. \n                        CRITICAL RULE: The title MUST begin with the EXACT keyword phrase \"" ++
        keyword ++
        "\". \n                        Verbatim check: If keyword is \"××›×©×™×¨ ×œ×—×™×–×•×§\", title MUST start with \"××›×©×™×¨ ×œ×—×™×–×•×§\". It CANNOT be \"××›×©×™×¨ ×—×™×–×•×§\". \n                        Do NOT drop the letter \x27×œ\x27 or \x27×‘\x27 or \x27×”\x27. Copy-paste the keyword exactly."
      else
        "CONTEXT: \x7b Product: \"" ++ rowInterp row "name" ++
        "\" \x7d TASK: Generate Professional Product Title in Hebrew. Formula: \x7bProduct Name\x7d - \x7bMain Feature\x7d. Do NOT include \"Kleerix\"."
    else content
  let content :=
    if mode = .SELLING_BULLETS then
      "CONTEXT: \x7b Product: \"" ++ rowInterp row "name" ++ "\", Keyword: \"" ++
      rowGetOr row "rank_math_focus_keyword" ++
      "\" \x7d TASK: Write 5 short, punchy selling bullets (benefits) in Hebrew. Format: Plain text with bullets (â€¢), one per line. Max 4 words per bullet. Focus on: Relief, Comfort, Innovation. Example:\nâ€¢ ×”×§×œ×” ××™×™×“×™×ª ×‘×›××‘\nâ€¢ × ×•×—×•×ª ××§×¡×™××œ×™×ª ×œ×›×œ ×”×™×•×"
    else content
  let content :=
    if mode = .FACTUAL then
      if col.startsWith "option" || containsSubstr col "name" || containsSubstr col "value" then
        "TASK: Translate these Product Option Names/Values to Hebrew. Examples: \x27Small\x27->\x27×§×˜×Ÿ\x27, \x27Blue\x27->\x27×›×—×•×œ\x27, \x27Size\x27->\x27××™×“×”\x27, \x27Color\x27->\x27×¦×‘×¢\x27. Maintain comma separation strictly. Input: \"" ++
        content ++ "\""
      else if containsSubstr col "×©×™×•×š" then
        "TASK: Translate these Product Option Names/Values to Hebrew. Input: \"" ++ content ++ "\""
      else
        "TASK: Translate to Hebrew. Preserve numbers. Input: \"" ++ content ++ "\""
    else content
  content

/-- `App.tsx:305-376`: build the batch for one record — map every selected
column to its constructed instruction (mode defaulting to `FACTUAL` when
unset) and keep only items with non-empty text. -/
def buildBatchItems (row : Row) (selectedColumns : List String)
    (columnModes : List (String × OptimizationMode)) : List BatchItem :=
  (selectedColumns.map (fun col =>
    let mode := (mapFind columnModes col).getD .FACTUAL
    { text := constructContent row col mode, mode := mode, columnName := col })).filter
    (fun item => item.text ≠ "" && item.text.length > 0)

/-- The write-back of `App.tsx:380-384`: for each `(item, idx)` pair write
`results[idx]` into `row[item.columnName]` when `results[idx]` and
`item.columnName` are both truthy (once `results` is exhausted every
further lookup is `undefined`, hence falsy). -/
def applyResults : Row → List BatchItem → List String → Row
  | row, [], _ => row
  | row, _ :: _, [] => row
  | row, item :: items, res :: ress =>
      let row' := if res ≠ "" && item.columnName ≠ "" then
        mapSet row item.columnName res else row
      applyResults row' items ress

/-- Output of one batch-pipeline run: final working copy and sync map, the
sequence of `completed` counter values published by `setStatus`, the
caught batch error (if any), and the last published `completed` value. -/
structure LoopOut where
  products : List Row
  syncStatus : List (String × SyncState)
  trace : List Nat
  err : Option String
  completed : Nat
deriving DecidableEq, Repr

/-- The `for` loop of `startOptimization` (`App.tsx:295-393`): process the
selected identifiers in order; skip falsy identifiers and identifiers with
no matching product; for a record with a non-empty batch call the gateway
(`AIService.translateBatch`, abstracted by `g` — its thrown error aborts
the whole remaining batch), write the results back, and mark the record
`pending`; after each record publish `completed = i + 1`. -/
def pipelineLoop (g : List BatchItem → Except String (List String))
    (cols : List String) (modes : List (String × OptimizationMode)) :
    List String → Nat → List Row → List (String × SyncState) → List Nat → Nat → LoopOut
  | [], _, prods, sync, trace, comp => ⟨prods, sync, trace, none, comp⟩
  | id :: rest, i, prods, sync, trace, comp =>
      if id = "" then pipelineLoop g cols modes rest (i + 1) prods sync trace comp
      else
        match prods.findIdx? (fun p => mapFind p "id" == some id) with
        | none => pipelineLoop g cols modes rest (i + 1) prods sync trace comp
        | some idx =>
            match prods.get? idx with
            | none => pipelineLoop g cols modes rest (i + 1) prods sync trace comp
            | some row =>
                let items := buildBatchItems row cols modes
                if 0 < items.length then
                  match g items with
                  | .error msg => ⟨prods, sync, trace, some msg, comp⟩
                  | .ok results =>
                      pipelineLoop g cols modes rest (i + 1)
                        (prods.set idx (applyResults row items results))
                        (mapSet sync id SyncState.pending)
                        (trace ++ [i + 1]) (i + 1)
                else
                  pipelineLoop g cols modes rest (i + 1) prods sync (trace ++ [i + 1]) (i + 1)

/-- Result of `startOptimization`: the final component state plus the
observable sequence of `completed` values (the progress counter). -/
structure OptRun where
  state : AppState
  trace : List Nat
deriving DecidableEq, Repr

/-- `startOptimization` (`App.tsx:282-402`): guard against an empty
selection or a run in progress; checkpoint history; publish
`total = selectedIds.size, completed = 0, isProcessing = true`; run the
loop; on a thrown gateway error surface the translated message; finally
clear `isProcessing` and publish the completion message. -/
def startOptimization (s : AppState)
    (g : List BatchItem → Except String (List String)) : OptRun :=
  if s.selectedIds.length = 0 || s.status.isProcessing then ⟨s, []⟩
  else
    let s1 := saveToHistory s
    let s2 := { s1 with
      status := ⟨s.selectedIds.length, 0, true⟩
      errorMsg := none
      successMsg := none }
    let out := pipelineLoop g s2.selectedColumns s2.columnModes
      s2.selectedIds 0 s2.products s2.syncStatus [] 0
    let finalErr :=
      match out.err with
      | some msg =>
          some (if containsSubstr msg "429" then "Rate Limit Exceeded (429). Wait a moment."
                else "AI Optimization Error: " ++ msg)
      | none => none
    ⟨{ s2 with
        products := out.products
        syncStatus := out.syncStatus
        status := ⟨s.selectedIds.length, out.completed, false⟩
        errorMsg := finalErr
        successMsg := some "Optimization Cycle Finished." }, out.trace⟩

/-- Modelled from the spec (refinement comparison for the progress-counter
claim): "total = |selected records| × (fields resolved below, counted only
if non-empty after prompt construction)" — the sum over selected records
of the number of selected fields whose constructed instruction is
non-empty.  This is the spec's formula, deliberately not the code's. -/
def specBatchTotal (s : AppState) : Nat :=
  (s.selectedIds.map (fun id =>
    match s.products.find? (fun p => mapFind p "id" == some id) with
    | some row => (buildBatchItems row s.selectedColumns s.columnModes).length
    | none => 0)).sum

/-! ## AI gateway wrapper (`AIService`, `src/unnamed/part_000`) -/

/-- Result of one `AIService.executeAiCall` invocation: the overall
outcome, the number of provider attempts actually made, and the waits (in
milliseconds) inserted between attempts. -/
structure AiCallOut (V : Type) where
  result : Except String V
  attempts : Nat
  delays : List Nat
deriving Repr

/-- The transient-error test of `executeAiCall`:
`JSON.stringify(error).toLowerCase()` contains `'429'`, `'500'` or
`'503'` (the serialized error is modelled as the error string itself). -/
def isTransientError (errorStr : String) : Bool :=
  containsSubstr (jsToLower errorStr) "429" ||
  containsSubstr (jsToLower errorStr) "500" ||
  containsSubstr (jsToLower errorStr) "503"

/-- `maxRetries` of `executeAiCall`. -/
def maxRetries : Nat := 3

/-- The retry loop of `executeAiCall` (`part_000:322-348`), from attempt
number `attempt` with `fuel` attempts remaining.  `call n` is the outcome
of the n-th provider call (`callGemini` / `callOpenAI`); a transient
failure before the last attempt waits `3000 * 2 ^ attempt` ms and retries;
any other failure (or exhaustion) rethrows the last error. -/
def executeAiCallGo {V : Type} (call : Nat → Except String V) :
    Nat → Nat → AiCallOut V
  | 0, attempt => ⟨.error "AI Request failed.", attempt - 1, []⟩
  | fuel + 1, attempt =>
      match call attempt with
      | .ok v => ⟨.ok v, attempt, []⟩
      | .error e =>
          if isTransientError e && attempt < maxRetries then
            let out := executeAiCallGo call fuel (attempt + 1)
            ⟨out.result, out.attempts, 3000 * 2 ^ attempt :: out.delays⟩
          else ⟨.error e, attempt, []⟩

/-- `AIService.executeAiCall`: up to `maxRetries = 3` attempts, starting
at attempt 1. -/
def executeAiCall {V : Type} (call : Nat → Except String V) : AiCallOut V :=
  executeAiCallGo call maxRetries 1

/-- `AIService.translateBatch` (`part_000:158-177`): an empty batch
returns `[]` immediately, before the prompt is built and before any
provider access (so also before the missing-API-key check inside
`callGemini`); otherwise the prompt built from `items` goes through
`executeAiCall`.  `gateway items n` is the outcome of the n-th provider
call for this batch (the provider call boundary, including prompt
serialization and the API-key check, is the oracle). -/
def translateBatch (gateway : List BatchItem → Nat → Except String (List String))
    (items : List BatchItem) : AiCallOut (List String) :=
  if items.length = 0 then ⟨.ok [], 0, []⟩
  else executeAiCall (gateway items)

/-! ## Theorems for the spec claims -/

/-- Claim C3: undo/redo round trip — for every working-copy list and every
sequence of edits applied after a commit (`saveToHistory`), `handleUndo`
restores exactly the pre-edit working copy and a subsequent `handleRedo`
restores exactly the post-edit working copy; `handleUndo` is a no-op when
the past-stack is empty and `handleRedo` is a no-op when the future-stack
is empty.  (A sequence of edits is determined by the product list it ends
at, so it is quantified as that list.) -/
theorem undo_redo_round_trip :
    (∀ (s : AppState) (p : List Row),
      (handleUndo (applyEdit (saveToHistory s) p)).products = s.products ∧
      (handleRedo (handleUndo (applyEdit (saveToHistory s) p))).products = p) ∧
    (∀ s : AppState, s.historyPast = [] → handleUndo s = s) ∧
    (∀ s : AppState, s.historyFuture = [] → handleRedo s = s) := by
  refine ⟨fun s p => ?_, fun s h => ?_, fun s h => ?_⟩
  · constructor
    · simp [handleUndo, handleRedo, applyEdit, saveToHistory]
    · simp [handleUndo, handleRedo, applyEdit, saveToHistory]
  · simp [handleUndo, h]
  · simp [handleRedo, h]

/-- Claim C3 witness: the round trip and both no-ops at a concrete state. -/
theorem undo_redo_round_trip_witness :
    (handleUndo (applyEdit (saveToHistory
      { products := [[("id", "1")]], originalProducts := [], immutableProducts := [],
        historyPast := [], historyFuture := [], selectedIds := [], allColumns := [],
        selectedColumns := [], columnModes := [], syncStatus := [],
        status := ⟨0, 0, false⟩, errorMsg := none, successMsg := none })
      [[("id", "2")]])).products = [[("id", "1")]] ∧
    handleUndo
      { products := [], originalProducts := [], immutableProducts := [],
        historyPast := [], historyFuture := [], selectedIds := [], allColumns := [],
        selectedColumns := [], columnModes := [], syncStatus := [],
        status := ⟨0, 0, false⟩, errorMsg := none, successMsg := none } =
      { products := [], originalProducts := [], immutableProducts := [],
        historyPast := [], historyFuture := [], selectedIds := [], allColumns := [],
        selectedColumns := [], columnModes := [], syncStatus := [],
        status := ⟨0, 0, false⟩, errorMsg := none, successMsg := none } :=
  ⟨(undo_redo_round_trip.1 _ _).1, undo_redo_round_trip.2.1 _ rfl⟩

/-- Claim C7: a new forward mutation after an undo discards the
future-stack, so redo cannot restore the undone state.  Concretely, after
`commit; apply A; commit; apply B; undo; commit; apply C` the future-stack
is empty and redo is a no-op; moreover undo never clears the future-stack
(it prepends the pre-undo working copy) and redo removes exactly the entry
it restores — only a commit (`saveToHistory`, run by every new forward
mutation) clears it. -/
theorem redo_unavailable_after_new_mutation :
    (∀ (s : AppState) (a b c : List Row),
      (applyEdit (saveToHistory (handleUndo
        (applyEdit (saveToHistory (applyEdit (saveToHistory s) a)) b))) c).historyFuture
        = [] ∧
      handleRedo (applyEdit (saveToHistory (handleUndo
        (applyEdit (saveToHistory (applyEdit (saveToHistory s) a)) b))) c) =
        applyEdit (saveToHistory (handleUndo
          (applyEdit (saveToHistory (applyEdit (saveToHistory s) a)) b))) c) ∧
    (∀ s : AppState, (handleUndo s).historyFuture =
      (if s.historyPast = [] then s.historyFuture else s.products :: s.historyFuture)) ∧
    (∀ s : AppState, (handleRedo s).historyFuture = s.historyFuture.tail) ∧
    (∀ s : AppState, (saveToHistory s).historyFuture = []) := by
  refine ⟨fun s a b c => ⟨?_, ?_⟩, fun s => ?_, fun s => ?_, fun s => ?_⟩
  · simp [applyEdit, saveToHistory]
  · simp [handleRedo, applyEdit, saveToHistory]
  · rcases hp : s.historyPast with _ | ⟨q, qs⟩
    · simp [handleUndo, hp]
    · have hq : (q :: qs).getLast? = some ((q :: qs).getLast (by simp)) :=
        List.getLast?_eq_getLast_of_ne_nil (by simp)
      simp [handleUndo, hp, hq]
  · rcases hf : s.historyFuture with _ | ⟨q, qs⟩
    · simp [handleRedo, hf]
    · simp [handleRedo, hf]
  · simp [saveToHistory]

/-- Claim C8: frame property of undo/redo — neither `handleUndo` nor
`handleRedo` changes the immutable baseline, the last-known-remote map,
the sync-status map, or the selection set; only the working-copy list and
the two history stacks move. -/
theorem undo_redo_frame (s : AppState) :
    (handleUndo s).immutableProducts = s.immutableProducts ∧
    (handleUndo s).originalProducts = s.originalProducts ∧
    (handleUndo s).syncStatus = s.syncStatus ∧
    (handleUndo s).selectedIds = s.selectedIds ∧
    (handleRedo s).immutableProducts = s.immutableProducts ∧
    (handleRedo s).originalProducts = s.originalProducts ∧
    (handleRedo s).syncStatus = s.syncStatus ∧
    (handleRedo s).selectedIds = s.selectedIds := by
  rcases h : s.historyPast.getLast? with _ | p <;>
    rcases hf : s.historyFuture with _ | ⟨q, qs⟩ <;>
      simp [handleUndo, handleRedo, h, hf]

/-- Helper: a one-record batch in which the record is found and the
gateway call succeeds reduces to write-back plus `pending` marking. -/
theorem pipelineLoop_single_success
    (g : List BatchItem → Except String (List String))
    (cols : List String) (modes : List (String × OptimizationMode))
    (id : String) (n : Nat) (prods : List Row) (sync : List (String × SyncState))
    (trace : List Nat) (comp : Nat) (idx : Nat) (row : Row) (results : List String)
    (hid : id ≠ "")
    (hfind : prods.findIdx? (fun p => mapFind p "id" == some id) = some idx)
    (hget : prods.get? idx = some row)
    (hne : buildBatchItems row cols modes ≠ [])
    (hg : g (buildBatchItems row cols modes) = .ok results) :
    pipelineLoop g cols modes [id] n prods sync trace comp =
      ⟨prods.set idx (applyResults row (buildBatchItems row cols modes) results),
       mapSet sync id SyncState.pending, trace ++ [n + 1], none, n + 1⟩ := by
  have hlen : 0 < (buildBatchItems row cols modes).length := List.length_pos.mpr hne
  simp only [pipelineLoop, hid, if_false, hfind, hget, hlen, if_true, hg]

def c1row : Row := [("id", "1"), ("a", "X")]

/-- A workspace in which record "1" is clean: the working copy equals the
last-known-remote snapshot, one selected record and one selected column. -/
def c1state : AppState :=
  { products := [c1row], originalProducts := [("1", c1row)],
    immutableProducts := [("1", c1row)], historyPast := [], historyFuture := [],
    selectedIds := ["1"], allColumns := ["a"], selectedColumns := ["a"],
    columnModes := [], syncStatus := [], status := ⟨0, 0, false⟩,
    errorMsg := none, successMsg := none }

/-- Claim C1 counterexample: a pipeline write-back whose written value
equals last-known-remote still sets status `pending`.  The gateway returns
exactly the existing field value "X", so after the write the working copy
still equals `originalProducts["1"]`, yet `syncStatus["1"] = pending` —
refuting "status is `pending` iff the new value differs from
last-known-remote" for pipeline writes. -/
theorem dirty_status_claim_cex :
    (startOptimization c1state (fun _ => .ok ["X"])).state.products = [c1row] ∧
    mapFind (startOptimization c1state (fun _ => .ok ["X"])).state.originalProducts "1" =
      some c1row ∧
    mapFind (startOptimization c1state (fun _ => .ok ["X"])).state.syncStatus "1" =
      some SyncState.pending := by decide

/-- Claim C1 (amended): the revert path recomputes dirty status exactly —
after `handleRevert`, the restored working-copy record is the immutable
baseline and its status is `pending` iff that record differs from
last-known-remote (absent last-known-remote counts as different),
otherwise the status entry is removed; the pipeline write-back, by
contrast, unconditionally marks a successfully processed record `pending`
(whenever its batch is non-empty), regardless of the written values. -/
theorem dirty_status_amended :
    (∀ (s : AppState) (id : String) (original : Row),
      mapFind s.immutableProducts id = some original →
      (mapFind (handleRevert s id).syncStatus id =
        (match mapFind s.originalProducts id with
         | some cs => if original = cs then none else some SyncState.pending
         | none => some SyncState.pending)) ∧
      (∀ idx, s.products.findIdx? (fun p => mapFind p "id" == some id) = some idx →
        (handleRevert s id).products = s.products.set idx original)) ∧
    (∀ (g : List BatchItem → Except String (List String)) (cols : List String)
      (modes : List (String × OptimizationMode)) (id : String) (n : Nat)
      (prods : List Row) (sync : List (String × SyncState)) (trace : List Nat)
      (comp : Nat) (idx : Nat) (row : Row) (results : List String),
      id ≠ "" →
      prods.findIdx? (fun p => mapFind p "id" == some id) = some idx →
      prods.get? idx = some row →
      buildBatchItems row cols modes ≠ [] →
      g (buildBatchItems row cols modes) = .ok results →
      mapFind (pipelineLoop g cols modes [id] n prods sync trace comp).syncStatus id =
        some SyncState.pending) := by
  constructor
  · intro s id original horig
    have horig' : mapFind (saveToHistory s).immutableProducts id = some original := horig
    constructor
    · simp only [handleRevert, saveToHistory]
      rcases hcs : mapFind s.originalProducts id with _ | cs
      · simp [horig, revertIsDirty, hcs, mapFind_mapSet_self]
      · by_cases he : original = cs
        · simp [horig, revertIsDirty, hcs, he, mapFind_mapDelete_self]
        · simp [horig, revertIsDirty, hcs, he, mapFind_mapSet_self]
    · intro idx hidx
      simp only [handleRevert, saveToHistory]
      simp [horig, hidx]
  · intro g cols modes id n prods sync trace comp idx row results hid hfind hget hne hg
    rw [pipelineLoop_single_success g cols modes id n prods sync trace comp idx row results
      hid hfind hget hne hg]
    exact mapFind_mapSet_self _ _ _

def c1wrow : Row := [("id", "7"), ("b", "V")]

/-- Claim C1 witness: both amended parts at concrete inputs — a revert of
a record with no last-known-remote entry yields `pending`, and a one-record
successful pipeline run yields `pending`. -/
theorem dirty_status_amended_witness :
    mapFind (handleRevert
      { products := [c1wrow], originalProducts := [],
        immutableProducts := [("7", c1wrow)], historyPast := [], historyFuture := [],
        selectedIds := [], allColumns := [], selectedColumns := [], columnModes := [],
        syncStatus := [], status := ⟨0, 0, false⟩, errorMsg := none,
        successMsg := none } "7").syncStatus "7" = some SyncState.pending ∧
    mapFind (pipelineLoop (fun _ => .ok ["Z"]) ["b"] [] ["7"] 0 [c1wrow] [] [] 0).syncStatus
      "7" = some SyncState.pending := by
  constructor
  · exact ((dirty_status_amended.1 _ "7" c1wrow (by decide)).1).trans (by decide)
  · exact dirty_status_amended.2 (fun _ => .ok ["Z"]) ["b"] [] "7" 0 [c1wrow] [] [] 0 0
      c1wrow ["Z"] (by decide) (by decide) (by decide) (by decide) rfl

/-- An error message of the record-specific shape produced by the sync
loop's `catch` branch. -/
def syncErrorSurfaced (e : Option String) : Prop :=
  ∃ id msg, e = some ("Sync failed for ID " ++ id ++ ": " ++ msg)

theorem syncStep_products (st : AppState) (push : String → Row → PushRes) (i : String) :
    (syncStep st push i).products = st.products := by
  simp only [syncStep]
  split
  · rfl
  · split <;> rfl

theorem syncStep_lookup_other (st : AppState) (push : String → Row → PushRes)
    (i id : String) (h : id ≠ i) :
    mapFind (syncStep st push i).syncStatus id = mapFind st.syncStatus id ∧
    mapFind (syncStep st push i).originalProducts id = mapFind st.originalProducts id := by
  simp only [syncStep]
  split
  · simp [mapFind_mapSet_other _ _ _ _ h]
  · split <;> simp [mapFind_mapSet_other _ _ _ _ h]

theorem syncStep_error_mono (st : AppState) (push : String → Row → PushRes) (i : String)
    (h : syncErrorSurfaced st.errorMsg) :
    syncErrorSurfaced (syncStep st push i).errorMsg := by
  simp only [syncStep]
  split
  · exact h
  · split
    · exact h
    · exact ⟨_, _, rfl⟩

theorem syncFold_preserve (push : String → Row → PushRes) (id : String) :
    ∀ (ids : List String) (st : AppState), id ∉ ids →
      mapFind (ids.foldl (fun a i => syncStep a push i) st).syncStatus id =
        mapFind st.syncStatus id ∧
      mapFind (ids.foldl (fun a i => syncStep a push i) st).originalProducts id =
        mapFind st.originalProducts id ∧
      (syncErrorSurfaced st.errorMsg →
        syncErrorSurfaced (ids.foldl (fun a i => syncStep a push i) st).errorMsg) := by
  intro ids
  induction ids with
  | nil => exact fun st _ => ⟨rfl, rfl, fun h => h⟩
  | cons i rest ih =>
    intro st hmem
    have hne : id ≠ i := fun h => hmem (h ▸ List.mem_cons_self i rest)
    have hrest : id ∉ rest := fun h => hmem (List.mem_cons_of_mem i h)
    have hstep := syncStep_lookup_other st push i id hne
    have := ih (syncStep st push i) hrest
    exact ⟨this.1.trans hstep.1, this.2.1.trans hstep.2,
      fun h => this.2.2 (syncStep_error_mono st push i h)⟩

theorem syncFold_outcomes (push : String → Row → PushRes) :
    ∀ (ids : List String) (st : AppState) (id : String) (product : Row),
      ids.Nodup → id ∈ ids →
      st.products.find? (fun p => mapFind p "id" == some id) = some product →
      (push id product = .ok →
        mapFind (ids.foldl (fun a i => syncStep a push i) st).syncStatus id =
          some SyncState.synced ∧
        mapFind (ids.foldl (fun a i => syncStep a push i) st).originalProducts id =
          some product) ∧
      (∀ msg, push id product = .fail msg →
        mapFind (ids.foldl (fun a i => syncStep a push i) st).syncStatus id =
          some SyncState.error ∧
        syncErrorSurfaced (ids.foldl (fun a i => syncStep a push i) st).errorMsg) := by
  intro ids
  induction ids with
  | nil => intro st id product _ hmem; exact absurd hmem (List.not_mem_nil id)
  | cons i rest ih =>
    intro st id product hnd hmem hfind
    rcases List.mem_cons.mp hmem with rfl | hmem'
    · have hrest : id ∉ rest := (List.nodup_cons.mp hnd).1
      have hpres := syncFold_preserve push id rest
      constructor
      · intro hok
        have hstep : mapFind (syncStep st push id).syncStatus id = some SyncState.synced ∧
            mapFind (syncStep st push id).originalProducts id = some product := by
          simp only [syncStep, hfind, hok]
          exact ⟨mapFind_mapSet_self _ _ _, mapFind_mapSet_self _ _ _⟩
        have := hpres (syncStep st push id) hrest
        exact ⟨this.1.trans hstep.1, this.2.1.trans hstep.2⟩
      · intro msg hfail
        have hstep : mapFind (syncStep st push id).syncStatus id = some SyncState.error ∧
            syncErrorSurfaced (syncStep st push id).errorMsg := by
          simp only [syncStep, hfind, hfail]
          exact ⟨mapFind_mapSet_self _ _ _, ⟨id, msg, rfl⟩⟩
        have := hpres (syncStep st push id) hrest
        exact ⟨this.1.trans hstep.1, this.2.2 hstep.2⟩
    · have hfind' : (syncStep st push i).products.find?
          (fun p => mapFind p "id" == some id) = some product := by
        rw [syncStep_products]; exact hfind
      exact ih (syncStep st push i) id product (List.nodup_cons.mp hnd).2 hmem' hfind'

/-- Claim C2: the sync work list is processed sequentially and each
record's outcome is independent — for any identifier in the work list
whose product exists in the working copy, a successful push leaves its
status `synced` and replaces its last-known-remote entry with the pushed
working-copy record, and a failed push leaves its status `error` with the
record-specific error message surfaced, while the remaining identifiers
are still processed (the conclusion holds for every member of the work
list, regardless of the other pushes' outcomes; `handleSync` is a total
function, so no exception escapes the loop). -/
theorem syncAll_outcomes :
    ∀ (s : AppState) (push : String → Row → PushRes) (specificId : Option String)
      (id : String) (product : Row),
      (syncWorkList s specificId).Nodup →
      id ∈ syncWorkList s specificId →
      s.products.find? (fun p => mapFind p "id" == some id) = some product →
      (push id product = .ok →
        mapFind (handleSync s push specificId).syncStatus id = some SyncState.synced ∧
        mapFind (handleSync s push specificId).originalProducts id = some product) ∧
      (∀ msg, push id product = .fail msg →
        mapFind (handleSync s push specificId).syncStatus id = some SyncState.error ∧
        syncErrorSurfaced (handleSync s push specificId).errorMsg) := by
  intro s push specificId id product hnd hmem hfind
  have hne : (syncWorkList s specificId).isEmpty = false := by
    cases h : syncWorkList s specificId with
    | nil => rw [h] at hmem; exact absurd hmem (List.not_mem_nil id)
    | cons a l => rfl
  simp only [handleSync, hne, if_false, Bool.false_eq_true]
  exact syncFold_outcomes push (syncWorkList s specificId)
    { s with successMsg := none } id product hnd hmem hfind

def c2rowA : Row := [("id", "1"), ("name", "A")]
def c2rowB : Row := [("id", "2"), ("name", "B")]

/-- A workspace with two pending records. -/
def c2state : AppState :=
  { products := [c2rowA, c2rowB], originalProducts := [], immutableProducts := [],
    historyPast := [], historyFuture := [], selectedIds := [], allColumns := [],
    selectedColumns := [], columnModes := [],
    syncStatus := [("1", SyncState.pending), ("2", SyncState.pending)],
    status := ⟨0, 0, false⟩, errorMsg := none, successMsg := none }

/-- A push that succeeds for record "1" and fails for record "2". -/
def c2push (id : String) (_ : Row) : PushRes :=
  if id = "1" then .ok else .fail "validation error"

/-- Claim C2 witness: syncing two pending records where the first push
succeeds and the second returns a validation error — the first ends
`synced` with last-known-remote updated, the second ends `error` with its
error surfaced. -/
theorem syncAll_outcomes_witness :
    (mapFind (handleSync c2state c2push none).syncStatus "1" = some SyncState.synced ∧
     mapFind (handleSync c2state c2push none).originalProducts "1" = some c2rowA) ∧
    (mapFind (handleSync c2state c2push none).syncStatus "2" = some SyncState.error ∧
     syncErrorSurfaced (handleSync c2state c2push none).errorMsg) :=
  ⟨(syncAll_outcomes c2state c2push none "1" c2rowA (by decide) (by decide) (by decide)).1
      rfl,
   (syncAll_outcomes c2state c2push none "2" c2rowB (by decide) (by decide) (by decide)).2
      "validation error" rfl⟩

/-- Step equation: a falsy identifier is skipped (`continue`) without
publishing progress. -/
theorem pipelineLoop_cons_skip (g : List BatchItem → Except String (List String))
    (cols : List String) (modes : List (String × OptimizationMode)) (id : String)
    (rest : List String) (i : Nat) (prods : List Row) (sync : List (String × SyncState))
    (trace : List Nat) (comp : Nat) (hid : id = "") :
    pipelineLoop g cols modes (id :: rest) i prods sync trace comp =
      pipelineLoop g cols modes rest (i + 1) prods sync trace comp := by
  simp only [pipelineLoop, hid, if_true]

/-- Step equation: an identifier with no matching product is skipped
without publishing progress. -/
theorem pipelineLoop_cons_notfound (g : List BatchItem → Except String (List String))
    (cols : List String) (modes : List (String × OptimizationMode)) (id : String)
    (rest : List String) (i : Nat) (prods : List Row) (sync : List (String × SyncState))
    (trace : List Nat) (comp : Nat) (hid : id ≠ "")
    (hfind : prods.findIdx? (fun p => mapFind p "id" == some id) = none) :
    pipelineLoop g cols modes (id :: rest) i prods sync trace comp =
      pipelineLoop g cols modes rest (i + 1) prods sync trace comp := by
  simp only [pipelineLoop, hid, if_false, hfind]

/-- Step equation for the (unreachable) case of a found index with no
element. -/
theorem pipelineLoop_cons_getnone (g : List BatchItem → Except String (List String))
    (cols : List String) (modes : List (String × OptimizationMode)) (id : String)
    (rest : List String) (i : Nat) (prods : List Row) (sync : List (String × SyncState))
    (trace : List Nat) (comp : Nat) (idx : Nat) (hid : id ≠ "")
    (hfind : prods.findIdx? (fun p => mapFind p "id" == some id) = some idx)
    (hget : prods.get? idx = none) :
    pipelineLoop g cols modes (id :: rest) i prods sync trace comp =
      pipelineLoop g cols modes rest (i + 1) prods sync trace comp := by
  simp only [pipelineLoop, hid, if_false, hfind, hget]

/-- Step equation: a record with an empty batch publishes progress but
performs no gateway call and no write. -/
theorem pipelineLoop_cons_nobatch (g : List BatchItem → Except String (List String))
    (cols : List String) (modes : List (String × OptimizationMode)) (id : String)
    (rest : List String) (i : Nat) (prods : List Row) (sync : List (String × SyncState))
    (trace : List Nat) (comp : Nat) (idx : Nat) (row : Row) (hid : id ≠ "")
    (hfind : prods.findIdx? (fun p => mapFind p "id" == some id) = some idx)
    (hget : prods.get? idx = some row)
    (hlen : ¬ 0 < (buildBatchItems row cols modes).length) :
    pipelineLoop g cols modes (id :: rest) i prods sync trace comp =
      pipelineLoop g cols modes rest (i + 1) prods sync (trace ++ [i + 1]) (i + 1) := by
  simp only [pipelineLoop, hid, if_false, hfind, hget]
  rw [if_neg hlen]

/-- Step equation: a successful gateway call writes back and publishes
progress. -/
theorem pipelineLoop_cons_success (g : List BatchItem → Except String (List String))
    (cols : List String) (modes : List (String × OptimizationMode)) (id : String)
    (rest : List String) (i : Nat) (prods : List Row) (sync : List (String × SyncState))
    (trace : List Nat) (comp : Nat) (idx : Nat) (row : Row) (results : List String)
    (hid : id ≠ "")
    (hfind : prods.findIdx? (fun p => mapFind p "id" == some id) = some idx)
    (hget : prods.get? idx = some row)
    (hlen : 0 < (buildBatchItems row cols modes).length)
    (hg : g (buildBatchItems row cols modes) = .ok results) :
    pipelineLoop g cols modes (id :: rest) i prods sync trace comp =
      pipelineLoop g cols modes rest (i + 1)
        (prods.set idx (applyResults row (buildBatchItems row cols modes) results))
        (mapSet sync id SyncState.pending) (trace ++ [i + 1]) (i + 1) := by
  simp only [pipelineLoop, hid, if_false, hfind, hget]
  rw [if_pos hlen, hg]

/-- Step equation: a thrown gateway error aborts the whole remaining
batch. -/
theorem pipelineLoop_cons_error (g : List BatchItem → Except String (List String))
    (cols : List String) (modes : List (String × OptimizationMode)) (id : String)
    (rest : List String) (i : Nat) (prods : List Row) (sync : List (String × SyncState))
    (trace : List Nat) (comp : Nat) (idx : Nat) (row : Row) (msg : String)
    (hid : id ≠ "")
    (hfind : prods.findIdx? (fun p => mapFind p "id" == some id) = some idx)
    (hget : prods.get? idx = some row)
    (hlen : 0 < (buildBatchItems row cols modes).length)
    (hg : g (buildBatchItems row cols modes) = .error msg) :
    pipelineLoop g cols modes (id :: rest) i prods sync trace comp =
      ⟨prods, sync, trace, some msg, comp⟩ := by
  simp only [pipelineLoop, hid, if_false, hfind, hget]
  rw [if_pos hlen, hg]

/-- Helper: the `completed` values published by one pipeline run extend the
incoming trace by a strictly increasing list of record ordinals in
`(i, i + |ids|]`. -/
theorem pipelineLoop_trace_shape (g : List BatchItem → Except String (List String))
    (cols : List String) (modes : List (String × OptimizationMode)) :
    ∀ (ids : List String) (i : Nat) (prods : List Row)
      (sync : List (String × SyncState)) (trace : List Nat) (comp : Nat),
      ∃ t, (pipelineLoop g cols modes ids i prods sync trace comp).trace = trace ++ t ∧
        List.Chain' (· < ·) t ∧ ∀ c ∈ t, i + 1 ≤ c ∧ c ≤ i + ids.length := by
  intro ids
  induction ids with
  | nil => exact fun i prods sync trace comp => ⟨[], by simp [pipelineLoop], by simp, by simp⟩
  | cons id rest ih =>
    intro i prods sync trace comp
    have hwiden : ∀ t : List Nat, (∀ c ∈ t, i + 1 + 1 ≤ c ∧ c ≤ i + 1 + rest.length) →
        ∀ c ∈ t, i + 1 ≤ c ∧ c ≤ i + (id :: rest).length := by
      intro t hb c hcm
      have := hb c hcm
      simp only [List.length_cons]
      omega
    have hshift : ∀ t : List Nat, (∀ c ∈ t, i + 1 + 1 ≤ c ∧ c ≤ i + 1 + rest.length) →
        ∀ c ∈ (i + 1) :: t, i + 1 ≤ c ∧ c ≤ i + (id :: rest).length := by
      intro t hb c hcm
      rcases List.mem_cons.mp hcm with rfl | hcm'
      · simp only [List.length_cons]; omega
      · have := hb c hcm'
        simp only [List.length_cons]
        omega
    have hchain : ∀ t : List Nat, List.Chain' (· < ·) t →
        (∀ c ∈ t, i + 1 + 1 ≤ c ∧ c ≤ i + 1 + rest.length) →
        List.Chain' (· < ·) ((i + 1) :: t) := by
      intro t hc hb
      refine List.chain'_cons'.mpr ⟨fun y hy => ?_, hc⟩
      have := (hb y (List.mem_of_mem_head? hy)).1
      omega
    by_cases hid : id = ""
    · obtain ⟨t, ht, hc, hb⟩ := ih (i + 1) prods sync trace comp
      rw [pipelineLoop_cons_skip g cols modes id rest i prods sync trace comp hid]
      exact ⟨t, ht, hc, hwiden t hb⟩
    · rcases hfind : prods.findIdx? (fun p => mapFind p "id" == some id) with _ | idx
      · obtain ⟨t, ht, hc, hb⟩ := ih (i + 1) prods sync trace comp
        rw [pipelineLoop_cons_notfound g cols modes id rest i prods sync trace comp hid hfind]
        exact ⟨t, ht, hc, hwiden t hb⟩
      · rcases hget : prods.get? idx with _ | row
        · obtain ⟨t, ht, hc, hb⟩ := ih (i + 1) prods sync trace comp
          rw [pipelineLoop_cons_getnone g cols modes id rest i prods sync trace comp idx
            hid hfind hget]
          exact ⟨t, ht, hc, hwiden t hb⟩
        · by_cases hlen : 0 < (buildBatchItems row cols modes).length
          · rcases hg : g (buildBatchItems row cols modes) with msg | results
            · rw [pipelineLoop_cons_error g cols modes id rest i prods sync trace comp idx
                row msg hid hfind hget hlen hg]
              exact ⟨[], by simp, by simp, by simp⟩
            · obtain ⟨t, ht, hc, hb⟩ := ih (i + 1)
                (prods.set idx (applyResults row (buildBatchItems row cols modes) results))
                (mapSet sync id SyncState.pending) (trace ++ [i + 1]) (i + 1)
              rw [pipelineLoop_cons_success g cols modes id rest i prods sync trace comp idx
                row results hid hfind hget hlen hg]
              refine ⟨(i + 1) :: t, ?_, hchain t hc hb, hshift t hb⟩
              rw [ht, List.append_assoc, List.singleton_append]
          · obtain ⟨t, ht, hc, hb⟩ := ih (i + 1) prods sync (trace ++ [i + 1]) (i + 1)
            rw [pipelineLoop_cons_nobatch g cols modes id rest i prods sync trace comp idx
              row hid hfind hget hlen]
            refine ⟨(i + 1) :: t, ?_, hchain t hc hb, hshift t hb⟩
            rw [ht, List.append_assoc, List.singleton_append]

def c4row : Row := [("id", "1"), ("a", "X"), ("b", "Y")]

/-- One selected record with two selected columns whose constructed
instructions are both non-empty. -/
def c4state : AppState :=
  { products := [c4row], originalProducts := [("1", c4row)],
    immutableProducts := [("1", c4row)], historyPast := [], historyFuture := [],
    selectedIds := ["1"], allColumns := ["a", "b"], selectedColumns := ["a", "b"],
    columnModes := [], syncStatus := [], status := ⟨0, 0, false⟩,
    errorMsg := none, successMsg := none }

/-- Claim C4 counterexample: the batch run publishes
`total = |selected records|` (here 1), not the spec's sum over selected
records of the number of selected fields with a non-empty constructed
instruction (here 2): one record with two selected FACTUAL columns yields
two non-empty instructions but `total = 1`. -/
theorem progress_total_claim_cex :
    (startOptimization c4state (fun _ => .ok ["x", "y"])).state.status.total = 1 ∧
    specBatchTotal c4state = 2 := by decide

/-- Claim C4 (amended): at the start of every batch run `total` is the
number of selected record identifiers (not the field-count sum), and it is
unchanged by the run; `completed` only ever advances in whole-record
increments — the published `completed` values form a strictly increasing
sequence of record ordinals bounded by the number of selected records. -/
theorem progress_counters_amended :
    ∀ (s : AppState) (g : List BatchItem → Except String (List String)),
      s.selectedIds ≠ [] → s.status.isProcessing = false →
      (startOptimization s g).state.status.total = s.selectedIds.length ∧
      List.Chain' (· < ·) (startOptimization s g).trace ∧
      ∀ c ∈ (startOptimization s g).trace, 1 ≤ c ∧ c ≤ s.selectedIds.length := by
  intro s g hsel hproc
  have hlen : ¬ s.selectedIds.length = 0 := fun h => hsel (List.length_eq_zero.mp h)
  have hcond : ¬ ((decide (s.selectedIds.length = 0) || s.status.isProcessing) = true) := by
    simp [hlen, hproc]
  obtain ⟨t, ht, hc, hb⟩ := pipelineLoop_trace_shape g s.selectedColumns s.columnModes
    s.selectedIds 0 (saveToHistory s).products (saveToHistory s).syncStatus [] 0
  rw [List.nil_append] at ht
  have htotal : (startOptimization s g).state.status.total = s.selectedIds.length := by
    simp only [startOptimization]
    rw [if_neg hcond]
  have htrace : (startOptimization s g).trace =
      (pipelineLoop g s.selectedColumns s.columnModes s.selectedIds 0
        (saveToHistory s).products (saveToHistory s).syncStatus [] 0).trace := by
    simp only [startOptimization, saveToHistory]
    rw [if_neg hcond]
  refine ⟨htotal, ?_, ?_⟩
  · rw [htrace, ht]; exact hc
  · intro c hcm
    rw [htrace, ht] at hcm
    have := hb c hcm
    omega

/-- Claim C4 witness: the amended totals at a concrete run. -/
theorem progress_counters_amended_witness :
    (startOptimization c4state (fun _ => .ok ["x", "y"])).state.status.total =
      c4state.selectedIds.length ∧
    List.Chain' (· < ·) (startOptimization c4state (fun _ => .ok ["x", "y"])).trace :=
  ⟨(progress_counters_amended c4state _ (by decide) rfl).1,
   (progress_counters_amended c4state _ (by decide) rfl).2.1⟩

/-- Claim C5: gateway-call retry policy — every `executeAiCall` makes
between 1 and 3 provider attempts; the waits inserted between attempts are
exactly `3000 * 2 ^ a` milliseconds for each completed attempt
`a = 1, …, attempts - 1`; every attempt before the final one failed with a
transient error (rate-limit 429 or server-side 500/503 signal); a
successful call returns the final attempt's value; a failed call rethrows
the final attempt's error, which is either non-transient (no retry) or
occurred on the third and last attempt (exhaustion). -/
theorem executeAiCall_retry_policy :
    ∀ {V : Type} (call : Nat → Except String V),
      (1 ≤ (executeAiCall call).attempts ∧ (executeAiCall call).attempts ≤ 3) ∧
      (executeAiCall call).delays =
        (List.range' 1 ((executeAiCall call).attempts - 1)).map (fun a => 3000 * 2 ^ a) ∧
      (∀ a, 1 ≤ a → a < (executeAiCall call).attempts →
        ∃ e, call a = .error e ∧ isTransientError e = true) ∧
      (∀ v, (executeAiCall call).result = .ok v →
        call (executeAiCall call).attempts = .ok v) ∧
      (∀ e, (executeAiCall call).result = .error e →
        call (executeAiCall call).attempts = .error e ∧
        (isTransientError e = false ∨ (executeAiCall call).attempts = 3)) := by
  intro V call
  rcases hc1 : call 1 with e1 | v1
  · by_cases t1 : isTransientError e1 = true
    · rcases hc2 : call 2 with e2 | v2
      · by_cases t2 : isTransientError e2 = true
        · rcases hc3 : call 3 with e3 | v3
          · have hrun : executeAiCall call =
                ⟨.error e3, 3, [3000 * 2 ^ 1, 3000 * 2 ^ 2]⟩ := by
              simp [executeAiCall, executeAiCallGo, maxRetries, hc1, t1, hc2, t2, hc3]
            rw [hrun]
            dsimp only
            refine ⟨⟨by omega, by omega⟩, by simp [List.range'], ?_, ?_, ?_⟩
            · intro a ha1 ha2
              interval_cases a
              · exact ⟨e1, hc1, t1⟩
              · exact ⟨e2, hc2, t2⟩
            · intro v hv; cases hv
            · intro e he
              cases he
              exact ⟨hc3, Or.inr rfl⟩
          · have hrun : executeAiCall call =
                ⟨.ok v3, 3, [3000 * 2 ^ 1, 3000 * 2 ^ 2]⟩ := by
              simp [executeAiCall, executeAiCallGo, maxRetries, hc1, t1, hc2, t2, hc3]
            rw [hrun]
            dsimp only
            refine ⟨⟨by omega, by omega⟩, by simp [List.range'], ?_, ?_, ?_⟩
            · intro a ha1 ha2
              interval_cases a
              · exact ⟨e1, hc1, t1⟩
              · exact ⟨e2, hc2, t2⟩
            · intro v hv; cases hv; exact hc3
            · intro e he; cases he
        · have hrun : executeAiCall call = ⟨.error e2, 2, [3000 * 2 ^ 1]⟩ := by
            simp [executeAiCall, executeAiCallGo, maxRetries, hc1, t1, hc2, t2]
          rw [hrun]
          dsimp only
          refine ⟨⟨by omega, by omega⟩, by simp [List.range'], ?_, ?_, ?_⟩
          · intro a ha1 ha2
            interval_cases a
            exact ⟨e1, hc1, t1⟩
          · intro v hv; cases hv
          · intro e he
            cases he
            exact ⟨hc2, Or.inl (Bool.not_eq_true _ ▸ eq_false_of_ne_true t2)⟩
      · have hrun : executeAiCall call = ⟨.ok v2, 2, [3000 * 2 ^ 1]⟩ := by
          simp [executeAiCall, executeAiCallGo, maxRetries, hc1, t1, hc2]
        rw [hrun]
        dsimp only
        refine ⟨⟨by omega, by omega⟩, by simp [List.range'], ?_, ?_, ?_⟩
        · intro a ha1 ha2
          interval_cases a
          exact ⟨e1, hc1, t1⟩
        · intro v hv; cases hv; exact hc2
        · intro e he; cases he
    · have hrun : executeAiCall call = ⟨.error e1, 1, []⟩ := by
        simp [executeAiCall, executeAiCallGo, maxRetries, hc1, t1]
      rw [hrun]
      dsimp only
      refine ⟨⟨by omega, by omega⟩, by simp, ?_, ?_, ?_⟩
      · intro a ha1 ha2; omega
      · intro v hv; cases hv
      · intro e he
        cases he
        exact ⟨hc1, Or.inl (eq_false_of_ne_true t1)⟩
  · have hrun : executeAiCall call = ⟨.ok v1, 1, []⟩ := by
      simp [executeAiCall, executeAiCallGo, maxRetries, hc1]
    rw [hrun]
    dsimp only
    refine ⟨⟨by omega, by omega⟩, by simp, ?_, ?_, ?_⟩
    · intro a ha1 ha2; omega
    · intro v hv; cases hv; exact hc1
    · intro e he; cases he

/-- A provider that is rate-limited on its first attempt and succeeds on
the second. -/
def c5call (n : Nat) : Except String String :=
  if n = 1 then .error "HTTP 429 rate limited" else .ok "done"

/-- Claim C5 witness: for a call that hits a 429 once, the policy makes
exactly two attempts, the single wait is `3000 * 2 ^ 1` ms, and attempt 1
is a transient failure. -/
theorem executeAiCall_retry_policy_witness :
    (executeAiCall c5call).attempts = 2 ∧
    (executeAiCall c5call).delays = [6000] ∧
    ∃ e, c5call 1 = .error e ∧ isTransientError e = true :=
  ⟨by decide, by decide,
   (executeAiCall_retry_policy c5call).2.2.1 1 (le_refl 1) (by decide)⟩

/-- Helper: inserting bindings for keys other than `k` leaves the lookup of
`k` unchanged. -/
theorem foldl_mapSet_lookup_notin (keyOf : Row → String) :
    ∀ (l : List Row) (acc : List (String × Row)) (k : String),
      k ∉ l.map keyOf →
      mapFind (l.foldl (fun m p => mapSet m (keyOf p) p) acc) k = mapFind acc k := by
  intro l
  induction l with
  | nil => intro acc k _; rfl
  | cons p rest ih =>
    intro acc k hk
    have hne : k ≠ keyOf p := fun h => hk (h ▸ List.mem_cons_self _ _)
    have hrest : k ∉ rest.map keyOf := fun h => hk (List.mem_cons_of_mem _ h)
    calc mapFind ((p :: rest).foldl (fun m p => mapSet m (keyOf p) p) acc) k
        = mapFind (rest.foldl (fun m p => mapSet m (keyOf p) p)
            (mapSet acc (keyOf p) p)) k := rfl
      _ = mapFind (mapSet acc (keyOf p) p) k := ih _ k hrest
      _ = mapFind acc k := mapFind_mapSet_other _ _ _ _ hne

/-- Helper: when the keys are distinct, the map built by folding `mapSet`
over a list maps each element's key to that element. -/
theorem foldl_mapSet_lookup (keyOf : Row → String) :
    ∀ (l : List Row) (acc : List (String × Row)) (r : Row),
      r ∈ l → (l.map keyOf).Nodup →
      mapFind (l.foldl (fun m p => mapSet m (keyOf p) p) acc) (keyOf r) = some r := by
  intro l
  induction l with
  | nil => intro acc r hmem; exact absurd hmem (List.not_mem_nil r)
  | cons p rest ih =>
    intro acc r hmem hnd
    have hnd' : (keyOf p :: rest.map keyOf).Nodup := by simpa using hnd
    have hhead : keyOf p ∉ rest.map keyOf := (List.nodup_cons.mp hnd').1
    have htail : (rest.map keyOf).Nodup := (List.nodup_cons.mp hnd').2
    rcases List.mem_cons.mp hmem with rfl | hmem'
    · calc mapFind ((r :: rest).foldl (fun m p => mapSet m (keyOf p) p) acc) (keyOf r)
          = mapFind (rest.foldl (fun m p => mapSet m (keyOf p) p)
              (mapSet acc (keyOf r) r)) (keyOf r) := rfl
        _ = mapFind (mapSet acc (keyOf r) r) (keyOf r) :=
            foldl_mapSet_lookup_notin keyOf rest _ _ hhead
        _ = some r := mapFind_mapSet_self _ _ _
    · exact ih _ r hmem' (by simpa using htail)

/-- A workspace with a non-empty selection left over from before the
(re)connect. -/
def c6state : AppState :=
  { products := [], originalProducts := [], immutableProducts := [],
    historyPast := [], historyFuture := [], selectedIds := ["a"], allColumns := [],
    selectedColumns := [], columnModes := [], syncStatus := [],
    status := ⟨0, 0, false⟩, errorMsg := none, successMsg := none }

/-- Claim C6 counterexample: `handleShopifyConnect` never touches the
selection set — reloading the workspace while the identifier "a" is
selected leaves it selected, refuting "the selection set is empty
(cleared)". -/
theorem load_selection_claim_cex :
    (loadWorkspace c6state [[("id", "1"), ("name", "N")]]).selectedIds = ["a"] ∧
    c6state.selectedIds ≠ [] := by decide

/-- Claim C6 (amended): after a load, the working copy is the fetched
record list and (for distinct identifiers) both the immutable baseline and
the last-known-remote map send each fetched record's identifier to that
record; both history stacks are cleared; the selection set, however, is
left exactly as it was (it is not cleared). -/
theorem load_amended :
    ∀ (s : AppState) (fetched : List Row),
      (fetched.map (fun r => rowInterp r "id")).Nodup →
      (loadWorkspace s fetched).products = fetched ∧
      (loadWorkspace s fetched).historyPast = [] ∧
      (loadWorkspace s fetched).historyFuture = [] ∧
      (loadWorkspace s fetched).selectedIds = s.selectedIds ∧
      ∀ r ∈ fetched,
        mapFind (loadWorkspace s fetched).originalProducts (rowInterp r "id") = some r ∧
        mapFind (loadWorkspace s fetched).immutableProducts (rowInterp r "id") = some r := by
  intro s fetched hnd
  have hbase :
      (loadWorkspace s fetched).products = fetched ∧
      (loadWorkspace s fetched).historyPast = [] ∧
      (loadWorkspace s fetched).historyFuture = [] ∧
      (loadWorkspace s fetched).selectedIds = s.selectedIds ∧
      (loadWorkspace s fetched).originalProducts =
        fetched.foldl (fun m p => mapSet m (rowInterp p "id") p) [] ∧
      (loadWorkspace s fetched).immutableProducts =
        fetched.foldl (fun m p => mapSet m (rowInterp p "id") p) [] := by
    rcases fetched with _ | ⟨first, rest⟩ <;>
      exact ⟨rfl, rfl, rfl, rfl, rfl, rfl⟩
  refine ⟨hbase.1, hbase.2.1, hbase.2.2.1, hbase.2.2.2.1, ?_⟩
  intro r hr
  rw [hbase.2.2.2.2.1, hbase.2.2.2.2.2]
  exact ⟨foldl_mapSet_lookup (fun p => rowInterp p "id") fetched [] r hr hnd,
    foldl_mapSet_lookup (fun p => rowInterp p "id") fetched [] r hr hnd⟩

/-- Claim C6 witness: the amended load equations at a concrete two-record
fetch over a workspace with a leftover selection. -/
theorem load_amended_witness :
    (loadWorkspace c6state [[("id", "1")], [("id", "2")]]).historyPast = [] ∧
    (loadWorkspace c6state [[("id", "1")], [("id", "2")]]).selectedIds =
      c6state.selectedIds ∧
    mapFind (loadWorkspace c6state [[("id", "1")], [("id", "2")]]).originalProducts
      (rowInterp [("id", "2")] "id") = some [("id", "2")] :=
  ⟨(load_amended c6state _ (by decide)).2.1,
   (load_amended c6state _ (by decide)).2.2.2.1,
   ((load_amended c6state _ (by decide)).2.2.2.2 [("id", "2")] (by decide)).1⟩

/-- Helper: the write-back never touches a column that none of the batch
items name. -/
theorem applyResults_lookup_notin :
    ∀ (items : List BatchItem) (results : List String) (row : Row) (col : String),
      col ∉ items.map (·.columnName) →
      mapFind (applyResults row items results) col = mapFind row col := by
  intro items
  induction items with
  | nil => intro results row col _; cases results <;> rfl
  | cons item rest ih =>
    intro results row col hcol
    have hne : col ≠ item.columnName := fun h => hcol (h ▸ List.mem_cons_self _ _)
    have hrest : col ∉ rest.map (·.columnName) := fun h => hcol (List.mem_cons_of_mem _ h)
    rcases results with _ | ⟨res, ress⟩
    · rfl
    · by_cases hw : (res ≠ "" && item.columnName ≠ "") = true
      · have hstep : applyResults row (item :: rest) (res :: ress) =
            applyResults (mapSet row item.columnName res) rest ress := by
          simp only [applyResults]
          rw [if_pos hw]
        rw [hstep, ih ress _ col hrest, mapFind_mapSet_other _ _ _ _ hne]
      · have hstep : applyResults row (item :: rest) (res :: ress) =
            applyResults row rest ress := by
          simp only [applyResults]
          rw [if_neg hw]
        rw [hstep, ih ress _ col hrest]

/-- Helper: with distinct column names, the value of the i-th submitted
column after write-back is the i-th result when that result is non-empty,
and the previous row value otherwise (also when the result list is too
short). -/
theorem applyResults_lookup :
    ∀ (items : List BatchItem) (results : List String) (row : Row) (i : Nat)
      (item : BatchItem),
      (items.map (·.columnName)).Nodup →
      items.get? i = some item →
      mapFind (applyResults row items results) item.columnName =
        (match results.get? i with
         | some res =>
             if res ≠ "" ∧ item.columnName ≠ "" then some res
             else mapFind row item.columnName
         | none => mapFind row item.columnName) := by
  intro items
  induction items with
  | nil => intro results row i item _ hget; simp [List.get?] at hget
  | cons hd rest ih =>
    intro results row i item hnd hget
    have hnd' : (hd.columnName :: rest.map (·.columnName)).Nodup := by simpa using hnd
    have hhead : hd.columnName ∉ rest.map (·.columnName) := (List.nodup_cons.mp hnd').1
    have htail : (rest.map (·.columnName)).Nodup := (List.nodup_cons.mp hnd').2
    rcases results with _ | ⟨res, ress⟩
    · have hrow : applyResults row (hd :: rest) [] = row := rfl
      have hnone : (([] : List String).get? i) = none := by simp
      rw [hrow, hnone]
    · rcases i with _ | i
      · have hitem : hd = item := by simpa using hget
        subst hitem
        have hres : ((res :: ress).get? 0) = some res := rfl
        rw [hres]
        by_cases hw : (res ≠ "" && hd.columnName ≠ "") = true
        · have hcond : res ≠ "" ∧ hd.columnName ≠ "" := by
            constructor <;> simp_all
          have hstep : applyResults row (hd :: rest) (res :: ress) =
              applyResults (mapSet row hd.columnName res) rest ress := by
            simp only [applyResults]
            rw [if_pos hw]
          rw [hstep, applyResults_lookup_notin rest ress _ _ hhead,
            mapFind_mapSet_self]
          simp [hcond]
        · have hcond : ¬ (res ≠ "" ∧ hd.columnName ≠ "") := by
            intro hc
            exact hw (by simp [hc.1, hc.2])
          have hstep : applyResults row (hd :: rest) (res :: ress) =
              applyResults row rest ress := by
            simp only [applyResults]
            rw [if_neg hw]
          rw [hstep, applyResults_lookup_notin rest ress _ _ hhead]
          simp [hcond]
      · have hget' : rest.get? i = some item := by simpa using hget
        have hmem : item ∈ rest := List.get?_mem hget'
        have hne : item.columnName ≠ hd.columnName := by
          intro h
          exact hhead (h ▸ List.mem_map_of_mem (·.columnName) hmem)
        have hress : ((res :: ress).get? (i + 1)) = ress.get? i := rfl
        rw [hress]
        by_cases hw : (res ≠ "" && hd.columnName ≠ "") = true
        · have hstep : applyResults row (hd :: rest) (res :: ress) =
              applyResults (mapSet row hd.columnName res) rest ress := by
            simp only [applyResults]
            rw [if_pos hw]
          rw [hstep, ih ress (mapSet row hd.columnName res) i item htail hget',
            mapFind_mapSet_other _ _ _ _ hne]
        · have hstep : applyResults row (hd :: rest) (res :: ress) =
              applyResults row rest ress := by
            simp only [applyResults]
            rw [if_neg hw]
          rw [hstep, ih ress row i item htail hget']

def c9row : Row := [("id", "1"), ("a", "X")]

/-- One selected record with a single selected FACTUAL column holding
"X". -/
def c9state : AppState :=
  { products := [c9row], originalProducts := [("1", c9row)],
    immutableProducts := [("1", c9row)], historyPast := [], historyFuture := [],
    selectedIds := ["1"], allColumns := ["a"], selectedColumns := ["a"],
    columnModes := [], syncStatus := [], status := ⟨0, 0, false⟩,
    errorMsg := none, successMsg := none }

/-- Claim C9 counterexample: a gateway call that succeeds and returns the
empty string for a field does NOT write it — the field keeps its previous
value "X" instead of becoming "" as "each returned string is written"
requires (the truthiness check `results[idx] &&` skips falsy results); the
record is still marked `pending`. -/
theorem writeback_claim_cex :
    (startOptimization c9state (fun _ => .ok [""])).state.products = [c9row] ∧
    rowGetOr c9row "a" = "X" ∧
    mapFind (startOptimization c9state (fun _ => .ok [""])).state.syncStatus "1" =
      some SyncState.pending := by decide

/-- Claim C9 (amended): for every record of a batch whose gateway call
succeeds, the record's new working copy is the old one with, for each
submitted item index i (columns distinct), the i-th returned string
written into the i-th submitted field when that string is non-empty (and
the field left unchanged when the i-th result is empty or missing), and
the record's sync status set to `pending`. -/
theorem writeback_amended :
    ∀ (g : List BatchItem → Except String (List String)) (cols : List String)
      (modes : List (String × OptimizationMode)) (id : String) (n : Nat)
      (prods : List Row) (sync : List (String × SyncState)) (trace : List Nat)
      (comp : Nat) (idx : Nat) (row : Row) (results : List String) (i : Nat)
      (item : BatchItem),
      id ≠ "" →
      prods.findIdx? (fun p => mapFind p "id" == some id) = some idx →
      prods.get? idx = some row →
      buildBatchItems row cols modes ≠ [] →
      g (buildBatchItems row cols modes) = .ok results →
      ((buildBatchItems row cols modes).map (·.columnName)).Nodup →
      (buildBatchItems row cols modes).get? i = some item →
      (pipelineLoop g cols modes [id] n prods sync trace comp).products =
        prods.set idx (applyResults row (buildBatchItems row cols modes) results) ∧
      mapFind (pipelineLoop g cols modes [id] n prods sync trace comp).syncStatus id =
        some SyncState.pending ∧
      mapFind (applyResults row (buildBatchItems row cols modes) results)
          item.columnName =
        (match results.get? i with
         | some res =>
             if res ≠ "" ∧ item.columnName ≠ "" then some res
             else mapFind row item.columnName
         | none => mapFind row item.columnName) := by
  intro g cols modes id n prods sync trace comp idx row results i item
    hid hfind hget hne hg hnd hgi
  have hrun := pipelineLoop_single_success g cols modes id n prods sync trace comp idx row
    results hid hfind hget hne hg
  refine ⟨by rw [hrun], ?_, ?_⟩
  · rw [hrun]
    exact mapFind_mapSet_self _ _ _
  · exact applyResults_lookup (buildBatchItems row cols modes) results row i item hnd hgi

def c9wrow : Row := [("id", "3"), ("c", "old")]

/-- Claim C9 witness: the amended write-back at a concrete one-record
batch whose gateway returns a non-empty string. -/
theorem writeback_amended_witness :
    (pipelineLoop (fun _ => .ok ["new"]) ["c"] [] ["3"] 0 [c9wrow] [] [] 0).products =
      [c9wrow].set 0 (applyResults c9wrow (buildBatchItems c9wrow ["c"] []) ["new"]) ∧
    mapFind (pipelineLoop (fun _ => .ok ["new"]) ["c"] [] ["3"] 0 [c9wrow] [] [] 0).syncStatus
      "3" = some SyncState.pending :=
  ⟨(writeback_amended (fun _ => .ok ["new"]) ["c"] [] "3" 0 [c9wrow] [] [] 0 0 c9wrow
      ["new"] 0 ⟨constructContent c9wrow "c" .FACTUAL, .FACTUAL, "c"⟩
      (by decide) (by decide) (by decide) (by decide) rfl (by decide) (by decide)).1,
   (writeback_amended (fun _ => .ok ["new"]) ["c"] [] "3" 0 [c9wrow] [] [] 0 0 c9wrow
      ["new"] 0 ⟨constructContent c9wrow "c" .FACTUAL, .FACTUAL, "c"⟩
      (by decide) (by decide) (by decide) (by decide) rfl (by decide) (by decide)).2.1⟩

/-- Claim C10: `translateBatch` on the empty item list returns the empty
array immediately — zero provider attempts (so no provider call, no
missing-API-key error, which lives inside the provider-call oracle), zero
retry waits, and a successful `[]` result, for every provider behaviour. -/
theorem translateBatch_empty :
    ∀ gateway : List BatchItem → Nat → Except String (List String),
      translateBatch gateway [] = ⟨.ok [], 0, []⟩ :=
  fun _ => rfl
